import Mathlib

/-!
Verification development for the PrivateAIM node storage service.

The embedding covers the two specified subsystems:
* the Secure Channel Codec (ECDH key agreement plus authenticated
  per-unit encryption) and the Object Retrieval Pipeline built on it
  (`project/routers/intermediate.py`), and
* the Tag Ledger and its orchestration endpoints
  (`project/routers/local.py`).

The repository modules `project/crypto.py` and `project/crud.py` are not
part of the provided sources (only their callers and tests are), so the
codec primitives and the relational model definitions are modelled from
the specification; every such definition carries a doc comment starting
with `Modelled from the spec:`.  Everything else is translated directly
from the Python sources.
-/

/-- A byte, as carried in object payloads and encrypted units. -/
abbrev Byte := Fin 256

/-! ## Secure Channel Codec (`project/crypto.py`, modelled from the spec) -/

/-- Modelled from the spec: the fixed elliptic curve of the codec is
represented by a fixed cyclic group, here the multiplicative structure of
integers modulo the prime 251 with generator 6.  `project/crypto.py` is not
under `src/`; §4.1 only requires a fixed group with commuting exponentiation. -/
def groupMod : Nat := 251

/-- Modelled from the spec: the group generator of the fixed curve model. -/
def groupGen : Nat := 6

/-- Modelled from the spec: the public key corresponding to a private scalar
(`g ^ priv` in the fixed group). -/
def publicKeyOf (priv : Nat) : Nat :=
  groupGen ^ priv % groupMod

/-- Modelled from the spec: the raw ECDH shared secret, obtained by
exponentiating the peer public key with the local private scalar. -/
def ecdhShared (priv pub : Nat) : Nat :=
  pub ^ priv % groupMod

/-- Modelled from the spec: the key-derivation step applied to the raw ECDH
output before it is used as a symmetric key (§4.1: the shared secret is fed
through a KDF and the raw ECDH output is never used directly). -/
def kdf (shared : Nat) : Nat :=
  (shared * 2654435761 + 104729) % 4294967296

/-- Modelled from the spec: `deriveSharedKey(localPrivateKey, peerPublicKey)`
runs ECDH key agreement and feeds the shared secret through the KDF.
Deterministic given the same key pair. -/
def deriveSharedKey (priv pub : Nat) : Nat :=
  kdf (ecdhShared priv pub)

/-- Width of the per-unit nonce in bytes (fixed for the chosen cipher, §6). -/
def nonceLen : Nat := 12

/-- Width of the authentication tag in bytes (fixed for the chosen cipher, §6). -/
def tagLen : Nat := 16

/-- Fixed-width little-endian byte encoding of a natural number; used for the
nonce and the authentication tag, whose widths are fixed by the layout. -/
def natToBytes : Nat → Nat → List Byte
  | 0, _ => []
  | k + 1, n => ⟨n % 256, by omega⟩ :: natToBytes k (n / 256)

/-- Modelled from the spec: the keystream byte of the authenticated cipher at
position `i`, determined by the symmetric key and the per-unit nonce. -/
def keystream (key : Nat) (nb : List Byte) (i : Nat) : Byte :=
  ⟨(key + (nb.foldl (fun a b => a * 256 + b.val) 0) * 7 + i * 13 + 11) % 256, by omega⟩

/-- Modelled from the spec: cipher encryption pass — each plaintext byte is
added (mod 256) to the keystream byte at its position. -/
def cipherEnc (key : Nat) (nb : List Byte) : Nat → List Byte → List Byte
  | _, [] => []
  | i, b :: bs => (b + keystream key nb i) :: cipherEnc key nb (i + 1) bs

/-- Modelled from the spec: cipher decryption pass, the inverse of
`cipherEnc` given the same key and nonce. -/
def cipherDec (key : Nat) (nb : List Byte) : Nat → List Byte → List Byte
  | _, [] => []
  | i, b :: bs => (b - keystream key nb i) :: cipherDec key nb (i + 1) bs

/-- Modelled from the spec: the authentication tag over a ciphertext, keyed by
the symmetric key and bound to the per-unit nonce. -/
def macTag (key : Nat) (nb ct : List Byte) : List Byte :=
  natToBytes tagLen
    ((nb ++ ct).foldl (fun a b => (a * 131 + b.val + 7) % 1000000007) (key % 1000000007))

/-- Modelled from the spec: `encryptUnit(key, plaintext)` — the fresh
unit-scoped nonce is made explicit as the `nonce` entropy argument; the unit
is emitted as nonce ++ ciphertext ++ tag in a fixed, versionless layout (§6). -/
def encryptUnit (key nonce : Nat) (pt : List Byte) : List Byte :=
  let nb := natToBytes nonceLen nonce
  let ct := cipherEnc key nb 0 pt
  nb ++ ct ++ macTag key nb ct

/-- Modelled from the spec: `decryptUnit(key, unit)` parses
nonce/ciphertext/tag from the layout, verifies the tag and on success returns
the plaintext; `none` is the `AuthenticationFailure` outcome (tampering,
wrong key, or corrupted/misaligned input). -/
def decryptUnit (key : Nat) (unit : List Byte) : Option (List Byte) :=
  if unit.length < nonceLen + tagLen then none
  else
    let nb := unit.take nonceLen
    let rest := unit.drop nonceLen
    let ct := rest.take (rest.length - tagLen)
    let tg := rest.drop (rest.length - tagLen)
    if macTag key nb ct = tg then some (cipherDec key nb 0 ct) else none

/-- Modelled from the spec: `encrypt_default(private_key, public_key, data)`
derives the shared key and encrypts one unit (nonce entropy explicit). -/
def encrypt_default (priv pub nonce : Nat) (pt : List Byte) : List Byte :=
  encryptUnit (deriveSharedKey priv pub) nonce pt

/-- Modelled from the spec: `decrypt_default(private_key, public_key, data)`
derives the shared key and decrypts one unit; `none` models the `InvalidTag`
exception raised on authentication failure. -/
def decrypt_default (priv pub : Nat) (unit : List Byte) : Option (List Byte) :=
  decryptUnit (deriveSharedKey priv pub) unit

theorem natToBytes_length (k n : Nat) : (natToBytes k n).length = k := by
  induction k generalizing n with
  | zero => rfl
  | succ k ih => simp [natToBytes, ih]

theorem cipherEnc_length (key : Nat) (nb : List Byte) (i : Nat) (bs : List Byte) :
    (cipherEnc key nb i bs).length = bs.length := by
  induction bs generalizing i with
  | nil => rfl
  | cons b bs ih => simp [cipherEnc, ih]

theorem macTag_length (key : Nat) (nb ct : List Byte) : (macTag key nb ct).length = tagLen := by
  simp [macTag, natToBytes_length]

theorem cipherDec_cipherEnc (key : Nat) (nb : List Byte) (i : Nat) (bs : List Byte) :
    cipherDec key nb i (cipherEnc key nb i bs) = bs := by
  induction bs generalizing i with
  | nil => rfl
  | cons b bs ih => simp [cipherEnc, cipherDec, ih]

theorem decryptUnit_parts (key : Nat) (nb ct tg : List Byte)
    (h12 : nb.length = nonceLen) (h16 : tg.length = tagLen)
    (htg : macTag key nb ct = tg) :
    decryptUnit key (nb ++ (ct ++ tg)) = some (cipherDec key nb 0 ct) := by
  have hnotshort : ¬ (nb ++ (ct ++ tg)).length < nonceLen + tagLen := by
    simp [List.length_append, h12, h16]
  have htake : (nb ++ (ct ++ tg)).take nonceLen = nb := by
    rw [← h12, List.take_left]
  have hdrop : (nb ++ (ct ++ tg)).drop nonceLen = ct ++ tg := by
    rw [← h12, List.drop_left]
  have hrestlen : (ct ++ tg).length - tagLen = ct.length := by
    simp [List.length_append, h16]
  have htakect : (ct ++ tg).take ((ct ++ tg).length - tagLen) = ct := by
    rw [hrestlen, List.take_left]
  have hdroptg : (ct ++ tg).drop ((ct ++ tg).length - tagLen) = tg := by
    rw [hrestlen, List.drop_left]
  simp only [decryptUnit, if_neg hnotshort, htake, hdrop, htakect, hdroptg, if_pos htg]

theorem decryptUnit_encryptUnit (key nonce : Nat) (pt : List Byte) :
    decryptUnit key (encryptUnit key nonce pt) = some pt := by
  have hshape :
      encryptUnit key nonce pt =
        natToBytes nonceLen nonce ++
          (cipherEnc key (natToBytes nonceLen nonce) 0 pt ++
            macTag key (natToBytes nonceLen nonce)
              (cipherEnc key (natToBytes nonceLen nonce) 0 pt)) := by
    simp [encryptUnit, List.append_assoc]
  rw [hshape,
    decryptUnit_parts key _ _ _ (natToBytes_length _ _) (macTag_length _ _ _) rfl,
    cipherDec_cipherEnc]

/-! ## Tag name grammar (`is_valid_tag`, `project/routers/local.py` lines 34-38) -/

/-- A character of the regex class `[a-z0-9]`. -/
def isLowerAlnum (c : Char) : Bool :=
  (97 ≤ c.toNat && c.toNat ≤ 122) || (48 ≤ c.toNat && c.toNat ≤ 57)

/-- A character of the regex class `[a-z0-9-]`. -/
def isTagMid (c : Char) : Bool :=
  isLowerAlnum c || c == '-'

/-- Full match of the first regex alternative `[a-z0-9]{1,2}`:
one or two lowercase-alphanumeric characters. -/
def tagArmShort (l : List Char) : Bool :=
  (l.length == 1 || l.length == 2) && l.all isLowerAlnum

/-- The first character of the list exists and is lowercase-alphanumeric. -/
def headIsAlnum (l : List Char) : Bool :=
  match l with
  | [] => false
  | c :: _ => isLowerAlnum c

/-- The last character of the list exists and is lowercase-alphanumeric. -/
def lastIsAlnum (l : List Char) : Bool :=
  match l.getLast? with
  | some d => isLowerAlnum d
  | none => false

/-- Full match of the second regex alternative
`[a-z0-9][a-z0-9-]{,30}[a-z0-9]`: a lowercase-alphanumeric character, up to
30 characters from `[a-z0-9-]`, and a final lowercase-alphanumeric character. -/
def tagArmLong (l : List Char) : Bool :=
  match l with
  | [] => false
  | [_] => false
  | c :: rest =>
    isLowerAlnum c && rest.dropLast.all isTagMid && rest.dropLast.length ≤ 30 &&
      lastIsAlnum rest

/-- `is_valid_tag` from `project/routers/local.py`: `_TAG_PATTERN.fullmatch`
with `_TAG_PATTERN = [a-z0-9]{1,2}|[a-z0-9][a-z0-9-]{,30}[a-z0-9]` — a full
match of the alternation is a full match of one of the two alternatives. -/
def is_valid_tag (s : String) : Bool :=
  tagArmShort s.data || tagArmLong s.data

/-- The tag grammar as the specification words it (§6): either a 1-2
character lowercase-alphanumeric string, or a 2-32 character string of
lowercase alphanumerics and hyphens that starts and ends with an
alphanumeric character. -/
def specTagGrammar (s : String) : Bool :=
  let l := s.data
  (1 ≤ l.length && l.length ≤ 2 && l.all isLowerAlnum) ||
    (2 ≤ l.length && l.length ≤ 32 && l.all isTagMid && headIsAlnum l && lastIsAlnum l)

theorem isTagMid_of_alnum {c : Char} (h : isLowerAlnum c = true) : isTagMid c = true := by
  simp [isTagMid, h]

theorem tagArmLong_cons (c : Char) (rest : List Char) (h : rest ≠ []) :
    tagArmLong (c :: rest) =
      (isLowerAlnum c && rest.dropLast.all isTagMid &&
        decide (rest.dropLast.length ≤ 30) && lastIsAlnum rest) := by
  cases rest with
  | nil => exact absurd rfl h
  | cons a t => rfl

theorem tag_valid_iff_spec (s : String) : is_valid_tag s = true ↔ specTagGrammar s = true := by
  obtain ⟨l⟩ := s
  match l with
  | [] => simp [is_valid_tag, specTagGrammar, tagArmShort, tagArmLong]
  | [c] =>
    simp [is_valid_tag, specTagGrammar, tagArmShort, tagArmLong, headIsAlnum, lastIsAlnum]
  | c :: c2 :: t =>
    have hne : (c2 :: t) ≠ [] := by simp
    have hlast : (c2 :: t).getLast? = some ((c2 :: t).getLast hne) :=
      List.getLast?_eq_getLast _ hne
    have hlast2 : (c :: c2 :: t).getLast? = some ((c2 :: t).getLast hne) := by
      rw [List.getLast?_cons_cons, hlast]
    have hall : ∀ f : Char → Bool,
        (c2 :: t).all f =
          ((c2 :: t).dropLast.all f && f ((c2 :: t).getLast hne)) := by
      intro f
      conv_lhs => rw [← List.dropLast_append_getLast hne]
      simp [List.all_append]
    have hdllen : (c2 :: t).dropLast.length = t.length := by
      simp [List.length_dropLast]
    simp only [is_valid_tag, specTagGrammar, tagArmShort, tagArmLong_cons c _ hne,
      headIsAlnum, lastIsAlnum, hlast2, List.all_cons, hall isLowerAlnum, hall isTagMid,
      Bool.or_eq_true, Bool.and_eq_true, decide_eq_true_eq, beq_iff_eq,
      List.length_cons, hdllen, hlast]
    constructor
    · rintro (⟨h12, hc, hm, hd⟩ | ⟨⟨⟨hc, hm⟩, h30⟩, hd⟩)
      · exact Or.inl ⟨⟨by omega, by omega⟩, hc, hm, hd⟩
      · exact Or.inr
          ⟨⟨⟨⟨by omega, by omega⟩, isTagMid_of_alnum hc, hm, isTagMid_of_alnum hd⟩, hc⟩, hd⟩
    · rintro (⟨h12, hc, hm, hd⟩ | ⟨⟨⟨⟨h2, h32⟩, hcm, hm, hdm⟩, hc⟩, hd⟩)
      · exact Or.inl ⟨by omega, hc, hm, hd⟩
      · exact Or.inr ⟨⟨⟨hc, hm⟩, by omega⟩, hd⟩

/-! ## Tag Ledger relational model (`project/crud.py`, modelled from the spec) -/

/-- Modelled from the spec: a `Result` row of `project/crud.py` (§3) —
`object_id` (opaque identifier), `client_id` (owning analysis), `filename`. -/
structure ResultRow where
  object_id : String
  client_id : String
  filename : String
deriving DecidableEq, Repr

/-- Modelled from the spec: a `Tag` row of `project/crud.py` (§3) —
`tag_name` and `project_id`. -/
structure TagRow where
  tag_name : String
  project_id : String
deriving DecidableEq, Repr

/-- Modelled from the spec: a `TaggedResult` row of `project/crud.py` (§3) —
the many-to-many association between a Tag row and a Result row. -/
structure TaggedResultRow where
  tag : TagRow
  result : ResultRow
deriving DecidableEq, Repr

/-- The three tables of the Tag Ledger (the relational store state). -/
structure Ledger where
  results : List ResultRow
  tags : List TagRow
  taggedResults : List TaggedResultRow
deriving DecidableEq, Repr

/-- Modelled from the spec: `Result.get_or_create` — the create-if-absent
primitive of the relational store (§6, glossary): look the row up by all the
supplied fields, insert it if no matching unique key exists, and otherwise
return the existing row.  `none` is the `IntegrityError` outcome: a row with
the same unique pair (`object_id`, `client_id`) but a different `filename`
already exists (§3 invariant). -/
def resultGetOrCreate (st : Ledger) (client_id object_id filename : String) :
    Option (ResultRow × Ledger) :=
  match st.results.find? fun r =>
      r.client_id == client_id && r.object_id == object_id && r.filename == filename with
  | some r => some (r, st)
  | none =>
    if st.results.any fun r => r.client_id == client_id && r.object_id == object_id then
      none
    else
      some (⟨object_id, client_id, filename⟩,
        { st with results := st.results ++ [⟨object_id, client_id, filename⟩] })

/-- Modelled from the spec: `Tag.get_or_create` — create-if-absent on the
unique pair (`tag_name`, `project_id`); idempotent, never a conflict (§3). -/
def tagGetOrCreate (st : Ledger) (tag_name project_id : String) : TagRow × Ledger :=
  match st.tags.find? fun t => t.tag_name == tag_name && t.project_id == project_id with
  | some t => (t, st)
  | none => (⟨tag_name, project_id⟩, { st with tags := st.tags ++ [⟨tag_name, project_id⟩] })

/-- Modelled from the spec: `TaggedResult.get_or_create` — create-if-absent on
the unique pair (`tag`, `result`); idempotent (§3). -/
def taggedResultGetOrCreate (st : Ledger) (tag : TagRow) (result : ResultRow) : Ledger :=
  match st.taggedResults.find? fun tr => tr.tag == tag && tr.result == result with
  | some _ => st
  | none => { st with taggedResults := st.taggedResults ++ [⟨tag, result⟩] }

/-- Error taxonomy of the tag-ledger operations (`HTTPException`s raised by
`tag_object` plus a store-level fault). -/
inductive TagError where
  | invalidTag
  | filenameConflict
  | storeFault
deriving DecidableEq, Repr

/-- An injected relational-store failure at one of the three create-if-absent
steps of `tag_object` (e.g. a lost connection); `none` injects no fault. -/
inductive FaultStep where
  | atResult
  | atTag
  | atTaggedResult
deriving DecidableEq, Repr

/-- The effective filename stored by `tag_object`: Python's
`filename or "data.bin"` falls back to the placeholder when `filename` is
`None` or the empty string (both falsy). -/
def effectiveFilename (filename : Option String) : String :=
  match filename with
  | none => "data.bin"
  | some f => if f = "" then "data.bin" else f

/-- `tag_object` from `project/routers/local.py` lines 41-67: validate the tag
name, then perform the three create-if-absent steps in order inside the
`crud.bind_to(db)` block; an `IntegrityError` from `Result.get_or_create` is
translated into the `FilenameConflict` 400 response.  The enclosing block is
Modelled from the spec for fault outcomes: all ledger writes are all-or-nothing
per call (§7), so a store fault injected at any step leaves the initial state
(`project/crud.py`, which realises the block, is not under `src/`). -/
def tag_object (fault : Option FaultStep) (st : Ledger)
    (tag project_id client_id object_id : String) (filename : Option String) :
    Except TagError Unit × Ledger :=
  if ¬ is_valid_tag tag then (.error .invalidTag, st)
  else if fault = some .atResult then (.error .storeFault, st)
  else
    match resultGetOrCreate st client_id object_id (effectiveFilename filename) with
    | none => (.error .filenameConflict, st)
    | some (result, st1) =>
      if fault = some .atTag then (.error .storeFault, st)
      else
        let (tagRow, st2) := tagGetOrCreate st1 tag project_id
        if fault = some .atTaggedResult then (.error .storeFault, st)
        else (.ok (), taggedResultGetOrCreate st2 tagRow result)

/-! ## Object store and orchestration (`project/routers/local.py`) -/

/-- The MinIO object store restricted to this service's keys: entries are the
paths `local/{project_id}/{object_id}`, represented structurally as the pair
of the two id components (object ids are UUIDs and contain no slash, so the
path composition used by the code is injective on these pairs). -/
structure MinioStore where
  objects : List (String × String)
deriving DecidableEq, Repr

/-- Cross-store side effects of one request, in execution order. -/
inductive StoreEvent where
  | ledgerWrite
  | storePut (project_id object_id : String)
  | storeRemove (project_id object_id : String)
  | ledgerDeleteResults
  | ledgerDeleteTags
deriving DecidableEq, Repr

/-- The HTTP-level error taxonomy of the local router: 404 `notFound`,
400 `invalidTag`/`filenameConflict`/`projectStillExists`, 403 `forbidden`,
502 `upstreamUnavailable`, and `internalError` for an unhandled exception
(e.g. an object-store or relational-store failure escaping the handler). -/
inductive ApiError where
  | notFound
  | invalidTag
  | filenameConflict
  | projectStillExists
  | forbidden
  | upstreamUnavailable
  | internalError
deriving DecidableEq, Repr

/-- `_get_object_from_s3` from `project/routers/local.py` lines 105-128:
`minio.get_object` on `local/{project_id}/{object_id}`; an `S3Error` with code
`NoSuchKey` (the key is absent) becomes a 404, any other `S3Error` (injected
here as `getFault`) becomes a 502. -/
def get_object_from_s3 (getFault : Bool) (store : MinioStore)
    (project_id object_id : String) : Except ApiError Unit :=
  if getFault then .error .upstreamUnavailable
  else if store.objects.contains (project_id, object_id) then .ok ()
  else .error .notFound

/-- `submit_intermediate_result_to_local` from `project/routers/local.py`
lines 137-179: resolve the project id for the analysis (`analysisProject`,
`none` when the hub does not know the analysis), draw a fresh `object_id`
(passed explicitly), run `tag_object` when a tag was supplied, and only then
`minio.put_object` the bytes (`putFails` injects an object-store failure,
which escapes the handler unhandled).  Returns the outcome, both stores, and
the ordered cross-store event trace. -/
def submit_intermediate_result_to_local
    (analysisProject : Option String) (putFails : Bool) (fault : Option FaultStep)
    (store : MinioStore) (db : Ledger)
    (client_id object_id : String) (tag : Option String) (filename : Option String) :
    Except ApiError Unit × MinioStore × Ledger × List StoreEvent :=
  match analysisProject with
  | none => (.error .notFound, store, db, [])
  | some project_id =>
    let afterTag : Except ApiError Unit × Ledger × List StoreEvent :=
      match tag with
      | none => (.ok (), db, [])
      | some t =>
        match tag_object fault db t project_id client_id object_id filename with
        | (.ok (), db1) => (.ok (), db1, [.ledgerWrite])
        | (.error .invalidTag, db1) => (.error .invalidTag, db1, [])
        | (.error .filenameConflict, db1) => (.error .filenameConflict, db1, [])
        | (.error .storeFault, db1) => (.error .internalError, db1, [])
    match afterTag with
    | (.error e, db1, evs) => (.error e, store, db1, evs)
    | (.ok (), db1, evs) =>
      if putFails then (.error .internalError, store, db1, evs)
      else (.ok (), ⟨store.objects ++ [(project_id, object_id)]⟩, db1,
        evs ++ [.storePut project_id object_id])

/-- `delete_local_results` from `project/routers/local.py` lines 187-217:
only the Hub Adapter client may purge; the project must be gone upstream;
then every object under the `local/{project_id}/` prefix is removed from the
object store (collecting the object ids) and finally the Result rows for the
collected ids and the Tag rows of the project are deleted.  TaggedResult rows
are Modelled from the spec: they are removed transitively when their Tag or
Result row is removed (§3 lifecycle — the cascade lives in `project/crud.py`,
which is not under `src/`). -/
def delete_local_results
    (hub_adapter_client_id : String) (projectOnHub : Bool)
    (store : MinioStore) (db : Ledger) (project_id client_id : String) :
    Except ApiError Unit × MinioStore × Ledger × List StoreEvent :=
  if client_id ≠ hub_adapter_client_id then (.error .forbidden, store, db, [])
  else if projectOnHub then (.error .projectStillExists, store, db, [])
  else
    let object_ids := (store.objects.filter fun o => o.1 == project_id).map fun o => o.2
    let store1 : MinioStore := ⟨store.objects.filter fun o => ¬ o.1 == project_id⟩
    let results1 := db.results.filter fun r => ¬ object_ids.contains r.object_id
    let tags1 := db.tags.filter fun t => ¬ t.project_id == project_id
    let tagged1 := db.taggedResults.filter fun tr =>
      results1.contains tr.result && tags1.contains tr.tag
    (.ok (), store1, ⟨results1, tags1, tagged1⟩,
      (object_ids.map fun oid => .storeRemove project_id oid) ++
        [.ledgerDeleteResults, .ledgerDeleteTags])

/-- `create_object_tag` from `project/routers/local.py` lines 261-291:
resolve the project for the analysis, check via `_get_object_from_s3` that
the object exists in the object store, then `tag_object`, then read back the
Result row to build the response (returning its `filename`). -/
def create_object_tag
    (analysisProject : Option String) (getFault : Bool) (fault : Option FaultStep)
    (store : MinioStore) (db : Ledger)
    (tag_name object_id client_id : String) (filename : Option String) :
    Except ApiError String × Ledger :=
  match analysisProject with
  | none => (.error .notFound, db)
  | some project_id =>
    match get_object_from_s3 getFault store project_id object_id with
    | .error e => (.error e, db)
    | .ok () =>
      match tag_object fault db tag_name project_id client_id object_id filename with
      | (.error .invalidTag, db1) => (.error .invalidTag, db1)
      | (.error .filenameConflict, db1) => (.error .filenameConflict, db1)
      | (.error .storeFault, db1) => (.error .internalError, db1)
      | (.ok (), db1) =>
        match db1.results.find? fun r =>
            r.object_id == object_id && r.client_id == client_id with
        | some r => (.ok r.filename, db1)
        | none => (.error .internalError, db1)

/-! ## Object Retrieval Pipeline (`project/routers/intermediate.py`) -/

/-- Failure modes of `retrieve_intermediate_result_from_hub`:
404 `objectNotFound`/`nodeNotFound`, 400 `noPublicKey`, the 400
`decryptionNotPossible` of the failed decryption pre-check, and
`streamExhausted` for the uncaught `StopIteration` that `next()` raises on a
zero-chunk stream (an unhandled exception, not an HTTP error response). -/
inductive RetrieveError where
  | objectNotFound
  | nodeNotFound
  | noPublicKey
  | decryptionNotPossible
  | streamExhausted
deriving DecidableEq, Repr

/-- The observable outcome of a hub retrieval: either the request errors
before any response body is produced, or a streamed body is produced —
`delivered` are the chunks actually yielded to the caller and `completed`
records whether the generator ran to the end (`false` models an exception
inside the generator aborting the response mid-stream). -/
inductive HubResponse where
  | httpError (e : RetrieveError)
  | streamed (delivered : List (List Byte)) (completed : Bool)
deriving DecidableEq, Repr

/-- The decrypting branch of the `_stream_bucket_file` generator
(`project/routers/intermediate.py` lines 164-171): each stored chunk is
decrypted independently and yielded; `decrypt_default` raising `InvalidTag`
inside the generator stops the stream at that point. -/
def streamDecryptUnits (priv pub : Nat) : List (List Byte) → List (List Byte) × Bool
  | [] => ([], true)
  | c :: cs =>
    match decrypt_default priv pub c with
    | none => ([], false)
    | some p =>
      let rest := streamDecryptUnits priv pub cs
      (p :: rest.1, rest.2)

/-- `retrieve_intermediate_result_from_hub` from
`project/routers/intermediate.py` lines 137-173: 404 when the bucket file is
absent; when decryption is requested (`node_id` supplied), take the first
chunk of a fresh stream (`next()` — uncaught end-of-stream on a zero-chunk
object), resolve the remote node's public key, pre-check decryption of that
first chunk (`InvalidTag` → 400 before any body bytes), and only then stream
a fresh read of all chunks through per-unit decryption; without `node_id` the
stored chunks are forwarded unchanged. -/
def retrieve_intermediate_result_from_hub
    (files : List (String × List (List Byte))) (nodes : List (String × Option Nat))
    (privKey : Nat) (object_id : String) (node_id : Option String) : HubResponse :=
  match files.find? fun f => f.1 == object_id with
  | none => .httpError .objectNotFound
  | some (_, chunks) =>
    match node_id with
    | none => .streamed chunks true
    | some nid =>
      match chunks with
      | [] => .httpError .streamExhausted
      | first :: _ =>
        match nodes.find? fun n => n.1 == nid with
        | none => .httpError .nodeNotFound
        | some (_, none) => .httpError .noPublicKey
        | some (_, some pub) =>
          match decrypt_default privKey pub first with
          | none => .httpError .decryptionNotPossible
          | some _ =>
            let out := streamDecryptUnits privKey pub chunks
            .streamed out.1 out.2

/-- The body chunks a caller receives from a `HubResponse` (an HTTP error
response carries no body chunks). -/
def deliveredBytes : HubResponse → List (List Byte)
  | .httpError _ => []
  | .streamed d _ => d

/-- C8: for every plaintext and valid key pairs on the fixed curve, whenever
the two ECDH-derived keys agree, decrypting the encryption of the plaintext
under the other side's derived key recovers exactly the plaintext. -/
theorem c8_encrypt_decrypt_roundtrip (P : List Byte) (Apriv Bpriv Apub Bpub nonce : Nat)
    (_hA : Apub = publicKeyOf Apriv) (_hB : Bpub = publicKeyOf Bpriv)
    (hkey : deriveSharedKey Apriv Bpub = deriveSharedKey Bpriv Apub) :
    decryptUnit (deriveSharedKey Bpriv Apub)
      (encryptUnit (deriveSharedKey Apriv Bpub) nonce P) = some P := by
  rw [hkey]
  exact decryptUnit_encryptUnit _ _ _

theorem c8_witness :
    publicKeyOf 3 = publicKeyOf 3 ∧ publicKeyOf 5 = publicKeyOf 5 ∧
    deriveSharedKey 3 (publicKeyOf 5) = deriveSharedKey 5 (publicKeyOf 3) ∧
    decryptUnit (deriveSharedKey 5 (publicKeyOf 3))
      (encryptUnit (deriveSharedKey 3 (publicKeyOf 5)) 7 [1, 2, 3]) = some [1, 2, 3] :=
  ⟨rfl, rfl, by decide,
    c8_encrypt_decrypt_roundtrip [1, 2, 3] 3 5 (publicKeyOf 3) (publicKeyOf 5) 7 rfl rfl
      (by decide)⟩

/-- C2: when decryption under a peer key is requested and the first unit of
the stored stream fails authentication, the whole request fails with the 400
`DecryptionNotPossible` error and zero body bytes are delivered — never a
truncated stream. -/
theorem c2_precheck_no_bytes
    (files : List (String × List (List Byte))) (nodes : List (String × Option Nat))
    (privKey : Nat) (object_id nid fid nfst : String) (pub : Nat)
    (first : List Byte) (rest : List (List Byte))
    (hfile : files.find? (fun f => f.1 == object_id) = some (fid, first :: rest))
    (hnode : nodes.find? (fun n => n.1 == nid) = some (nfst, some pub))
    (hfail : decrypt_default privKey pub first = none) :
    retrieve_intermediate_result_from_hub files nodes privKey object_id (some nid) =
      .httpError .decryptionNotPossible ∧
    deliveredBytes
      (retrieve_intermediate_result_from_hub files nodes privKey object_id (some nid)) = [] := by
  simp [retrieve_intermediate_result_from_hub, hfile, hnode, hfail, deliveredBytes]

theorem c2_witness :
    ([(("o" : String), [([] : List Byte)])].find?
        (fun f => f.1 == ("o" : String)) = some ("o", [([] : List Byte)])) ∧
    ([(("n" : String), (some 4 : Option Nat))].find?
        (fun n => n.1 == ("n" : String)) = some ("n", some 4)) ∧
    decrypt_default 3 4 [] = none ∧
    retrieve_intermediate_result_from_hub [("o", [[]])] [("n", some 4)] 3 "o" (some "n") =
      .httpError .decryptionNotPossible := by
  refine ⟨by decide, by decide, by decide, ?_⟩
  exact (c2_precheck_no_bytes [("o", [[]])] [("n", some 4)] 3 "o" "n" "o" "n" 4 [] []
    (by decide) (by decide) (by decide)).1

/-- C10: for a fetch with decryption requested of an existing object whose
stream yields zero chunks, taking the first unit fails with the uncaught
end-of-stream of `next()` — not `NotFound`, not `DecryptionNotPossible`, and
not any streamed (empty-plaintext) response. -/
theorem c10_empty_stream_uncaught
    (files : List (String × List (List Byte))) (nodes : List (String × Option Nat))
    (privKey : Nat) (object_id nid fid : String)
    (hfile : files.find? (fun f => f.1 == object_id) = some (fid, [])) :
    retrieve_intermediate_result_from_hub files nodes privKey object_id (some nid) =
      .httpError .streamExhausted ∧
    RetrieveError.streamExhausted ≠ .objectNotFound ∧
    RetrieveError.streamExhausted ≠ .decryptionNotPossible ∧
    (∀ d b, retrieve_intermediate_result_from_hub files nodes privKey object_id (some nid) ≠
      .streamed d b) := by
  refine ⟨?_, by decide, by decide, ?_⟩
  · simp [retrieve_intermediate_result_from_hub, hfile]
  · intro d b
    simp [retrieve_intermediate_result_from_hub, hfile]

theorem c10_witness :
    ([(("o" : String), ([] : List (List Byte)))].find?
        (fun f => f.1 == ("o" : String)) = some ("o", [])) ∧
    retrieve_intermediate_result_from_hub [("o", [])] [] 3 "o" (some "n") =
      .httpError .streamExhausted :=
  ⟨by decide,
    (c10_empty_stream_uncaught [("o", [])] [] 3 "o" "n" "o" (by decide)).1⟩

/-- C9: tagging an existing object requires the object bytes to be present:
when no object exists at the project-scoped path, `create_object_tag` fails
with `NotFound` (and with `UpstreamUnavailable` on any other store error) and
the ledger is unchanged — no Result, Tag, or TaggedResult row is written. -/
theorem c9_tag_requires_object
    (store : MinioStore) (db : Ledger) (pid tn oid cid : String) (fn : Option String)
    (fault : Option FaultStep)
    (habsent : store.objects.contains (pid, oid) = false) :
    create_object_tag (some pid) false fault store db tn oid cid fn =
      (.error .notFound, db) ∧
    create_object_tag (some pid) true fault store db tn oid cid fn =
      (.error .upstreamUnavailable, db) := by
  have hnm : (pid, oid) ∉ store.objects := by simpa using habsent
  constructor
  · simp [create_object_tag, get_object_from_s3, hnm]
  · simp [create_object_tag, get_object_from_s3]

theorem c9_witness :
    (MinioStore.mk []).objects.contains (("p" : String), ("o" : String)) = false ∧
    create_object_tag (some "p") false none ⟨[]⟩ ⟨[], [], []⟩ "ab" "o" "c" none =
      (.error .notFound, (⟨[], [], []⟩ : Ledger)) :=
  ⟨by decide,
    (c9_tag_requires_object ⟨[]⟩ ⟨[], [], []⟩ "p" "ab" "o" "c" none none (by decide)).1⟩

/-- C3: the tag validator accepts exactly the strings of the specified
grammar (1-2 lowercase alphanumerics, or 2-32 characters of lowercase
alphanumerics and hyphens starting and ending alphanumeric); the listed
examples are accepted/rejected accordingly; and a rejected tag makes
`tag_object` fail with `InvalidTag` before any store write. -/
theorem c3_tag_grammar :
    (∀ t : String, is_valid_tag t = true ↔ specTagGrammar t = true) ∧
    (is_valid_tag "a" = true ∧ is_valid_tag "0" = true ∧ is_valid_tag "result-1" = true ∧
      is_valid_tag (String.mk (['a'] ++ List.replicate 30 '-' ++ ['a'])) = true) ∧
    (is_valid_tag "" = false ∧ is_valid_tag " " = false ∧ is_valid_tag "-" = false ∧
      is_valid_tag "-ab" = false ∧ is_valid_tag "ab-" = false ∧
      is_valid_tag (String.mk (List.replicate 33 'a')) = false) ∧
    (∀ (fault : Option FaultStep) (st : Ledger) (t pid cid oid : String) (fn : Option String),
      is_valid_tag t = false →
      tag_object fault st t pid cid oid fn = (.error .invalidTag, st)) := by
  refine ⟨tag_valid_iff_spec, by decide, by decide, ?_⟩
  intro fault st t pid cid oid fn hbad
  simp [tag_object, hbad]

theorem c3_witness :
    (is_valid_tag "result-1" = true ↔ specTagGrammar "result-1" = true) ∧
    is_valid_tag "-ab" = false ∧
    tag_object none ⟨[], [], []⟩ "-ab" "p" "c" "o" none =
      (.error .invalidTag, (⟨[], [], []⟩ : Ledger)) :=
  ⟨c3_tag_grammar.1 "result-1", by decide,
    c3_tag_grammar.2.2.2 none ⟨[], [], []⟩ "-ab" "p" "c" "o" none (by decide)⟩

/-- C6 counterexample: a concrete tagged upload in which the object-store
write fails — `submit_intermediate_result_to_local` has already committed the
Result/Tag/TaggedResult rows for the new object id (`tag_object` runs before
`minio.put_object`), yet the object store never received the object. -/
theorem c6_counterexample :
    submit_intermediate_result_to_local (some "p") true none ⟨[]⟩ ⟨[], [], []⟩
        "c" "o" (some "ab") (some "f.txt") =
      (.error .internalError, ⟨[]⟩,
        ⟨[⟨"o", "c", "f.txt"⟩], [⟨"ab", "p"⟩], [⟨⟨"ab", "p"⟩, ⟨"o", "c", "f.txt"⟩⟩]⟩,
        [.ledgerWrite]) ∧
    (MinioStore.mk []).objects.contains ("p", "o") = false := by
  constructor
  · rfl
  · decide

/-- C6 amended: for every tagged local upload, the Tag Ledger write happens
before the object-store write — on success the event trace is the ledger
write followed by the store put, and a failing object-store write leaves the
committed ledger rows in place with no object stored. -/
theorem c6_amended_ledger_before_store
    (putFails : Bool) (fault : Option FaultStep) (store : MinioStore) (db db1 : Ledger)
    (pid cid oid t : String) (fn : Option String)
    (hs : tag_object fault db t pid cid oid fn = (.ok (), db1)) :
    (putFails = false →
      submit_intermediate_result_to_local (some pid) putFails fault store db cid oid
          (some t) fn =
        (.ok (), ⟨store.objects ++ [(pid, oid)]⟩, db1,
          [.ledgerWrite, .storePut pid oid])) ∧
    (putFails = true →
      submit_intermediate_result_to_local (some pid) putFails fault store db cid oid
          (some t) fn =
        (.error .internalError, store, db1, [.ledgerWrite])) := by
  constructor
  · intro h
    subst h
    simp [submit_intermediate_result_to_local, hs]
  · intro h
    subst h
    simp [submit_intermediate_result_to_local, hs]

theorem c6_amended_witness :
    tag_object none ⟨[], [], []⟩ "ab" "p" "c" "o" none =
      (.ok (), (⟨[⟨"o", "c", "data.bin"⟩], [⟨"ab", "p"⟩],
        [⟨⟨"ab", "p"⟩, ⟨"o", "c", "data.bin"⟩⟩]⟩ : Ledger)) ∧
    submit_intermediate_result_to_local (some "p") true none ⟨[]⟩ ⟨[], [], []⟩
        "c" "o" (some "ab") none =
      (.error .internalError, ⟨[]⟩,
        ⟨[⟨"o", "c", "data.bin"⟩], [⟨"ab", "p"⟩],
          [⟨⟨"ab", "p"⟩, ⟨"o", "c", "data.bin"⟩⟩]⟩,
        [.ledgerWrite]) :=
  ⟨rfl,
    (c6_amended_ledger_before_store true none ⟨[]⟩ ⟨[], [], []⟩
      ⟨[⟨"o", "c", "data.bin"⟩], [⟨"ab", "p"⟩], [⟨⟨"ab", "p"⟩, ⟨"o", "c", "data.bin"⟩⟩]⟩
      "p" "c" "o" "ab" none rfl).2 rfl⟩

theorem resultGetOrCreate_spec (st : Ledger) (cid oid fn : String) (r : ResultRow)
    (st1 : Ledger)
    (h : resultGetOrCreate st cid oid fn = some (r, st1)) :
    r.object_id = oid ∧ r.client_id = cid ∧ r.filename = fn ∧ r ∈ st1.results ∧
    st1.tags = st.tags ∧ st1.taggedResults = st.taggedResults ∧
    (st1 = st ∨
      (st1.results = st.results ++ [r] ∧
        ∀ x ∈ st.results, ¬ (x.client_id == cid && x.object_id == oid) = true)) := by
  unfold resultGetOrCreate at h
  cases hfind : st.results.find? fun x =>
      x.client_id == cid && x.object_id == oid && x.filename == fn with
  | some x =>
    rw [hfind] at h
    have hpred := List.find?_some hfind
    have hmem := List.mem_of_find?_eq_some hfind
    simp only [Bool.and_eq_true, beq_iff_eq] at hpred
    obtain ⟨⟨hc, ho⟩, hf⟩ := hpred
    obtain ⟨hxr, hst⟩ : x = r ∧ st = st1 := by
      simpa using h
    subst hxr; subst hst
    exact ⟨ho, hc, hf, hmem, rfl, rfl, Or.inl rfl⟩
  | none =>
    rw [hfind] at h
    by_cases hany : (st.results.any fun x => x.client_id == cid && x.object_id == oid) = true
    · rw [if_pos hany] at h
      simp at h
    · rw [if_neg hany] at h
      obtain ⟨hr, hst⟩ : (⟨oid, cid, fn⟩ : ResultRow) = r ∧
          ({ st with results := st.results ++ [⟨oid, cid, fn⟩] } : Ledger) = st1 := by
        simpa using h
      subst hr
      subst hst
      refine ⟨rfl, rfl, rfl, by simp, rfl, rfl, Or.inr ⟨rfl, ?_⟩⟩
      have hany2 : (st.results.any fun x => x.client_id == cid && x.object_id == oid) = false := by
        simpa using hany
      intro x hx
      simpa using List.any_eq_false.mp hany2 x hx

theorem tagGetOrCreate_spec (st1 : Ledger) (t pid : String) (tg : TagRow) (st2 : Ledger)
    (h : tagGetOrCreate st1 t pid = (tg, st2)) :
    tg.tag_name = t ∧ tg.project_id = pid ∧ tg ∈ st2.tags ∧
    st2.results = st1.results ∧ st2.taggedResults = st1.taggedResults ∧
    (st2 = st1 ∨
      (st2.tags = st1.tags ++ [tg] ∧
        st1.tags.find? (fun x => x.tag_name == t && x.project_id == pid) = none)) := by
  unfold tagGetOrCreate at h
  cases hfind : st1.tags.find? fun x => x.tag_name == t && x.project_id == pid with
  | some x =>
    rw [hfind] at h
    have hpred := List.find?_some hfind
    have hmem := List.mem_of_find?_eq_some hfind
    simp only [Bool.and_eq_true, beq_iff_eq] at hpred
    obtain ⟨hxr, hst⟩ : x = tg ∧ st1 = st2 := by simpa using h
    subst hxr; subst hst
    exact ⟨hpred.1, hpred.2, hmem, rfl, rfl, Or.inl rfl⟩
  | none =>
    rw [hfind] at h
    obtain ⟨hr, hst⟩ : (⟨t, pid⟩ : TagRow) = tg ∧
        ({ st1 with tags := st1.tags ++ [⟨t, pid⟩] } : Ledger) = st2 := by simpa using h
    subst hr; subst hst
    exact ⟨rfl, rfl, by simp, rfl, rfl, Or.inr ⟨rfl, rfl⟩⟩

theorem taggedResultGetOrCreate_spec (st2 : Ledger) (tg : TagRow) (r : ResultRow) :
    (⟨tg, r⟩ : TaggedResultRow) ∈ (taggedResultGetOrCreate st2 tg r).taggedResults ∧
    (taggedResultGetOrCreate st2 tg r).results = st2.results ∧
    (taggedResultGetOrCreate st2 tg r).tags = st2.tags ∧
    (taggedResultGetOrCreate st2 tg r = st2 ∨
      ((taggedResultGetOrCreate st2 tg r).taggedResults = st2.taggedResults ++ [⟨tg, r⟩] ∧
        st2.taggedResults.find? (fun x => x.tag == tg && x.result == r) = none)) := by
  unfold taggedResultGetOrCreate
  cases hfind : st2.taggedResults.find? fun x => x.tag == tg && x.result == r with
  | some x =>
    have hpred := List.find?_some hfind
    have hmem := List.mem_of_find?_eq_some hfind
    simp only [Bool.and_eq_true, beq_iff_eq] at hpred
    have hx : x = ⟨tg, r⟩ := by
      cases x
      simp_all
    subst hx
    exact ⟨hmem, rfl, rfl, Or.inl rfl⟩
  | none =>
    exact ⟨by simp, rfl, rfl, Or.inr ⟨rfl, rfl⟩⟩

theorem tag_object_run (fault : Option FaultStep) (st : Ledger)
    (t pid cid oid : String) (fn : Option String) :
    (∃ e, tag_object fault st t pid cid oid fn = (.error e, st)) ∨
    (∃ r tg st1 st2,
      resultGetOrCreate st cid oid (effectiveFilename fn) = some (r, st1) ∧
      tagGetOrCreate st1 t pid = (tg, st2) ∧
      is_valid_tag t = true ∧
      tag_object fault st t pid cid oid fn = (.ok (), taggedResultGetOrCreate st2 tg r)) := by
  by_cases hval : is_valid_tag t = true
  case neg => exact Or.inl ⟨.invalidTag, by simp [tag_object, hval]⟩
  by_cases hf1 : fault = some FaultStep.atResult
  · exact Or.inl ⟨.storeFault, by simp [tag_object, hval, hf1]⟩
  cases hres : resultGetOrCreate st cid oid (effectiveFilename fn) with
  | none => exact Or.inl ⟨.filenameConflict, by simp [tag_object, hval, hf1, hres]⟩
  | some pair =>
    obtain ⟨r, st1⟩ := pair
    rcases htag : tagGetOrCreate st1 t pid with ⟨tg, st2⟩
    by_cases hf2 : fault = some FaultStep.atTag
    · exact Or.inl ⟨.storeFault, by simp [tag_object, hval, hf1, hf2, hres]⟩
    by_cases hf3 : fault = some FaultStep.atTaggedResult
    · exact Or.inl ⟨.storeFault, by simp [tag_object, hval, hf1, hf2, hf3, hres, htag]⟩
    · exact Or.inr ⟨r, tg, st1, st2, rfl, htag, hval,
        by simp [tag_object, hval, hf1, hf2, hf3, hres, htag]⟩

/-- C1: every `tag_object` call is all-or-nothing — for any injected store
fault, a failing call leaves the ledger exactly as it was (no dangling row
created earlier in the call survives), and a successful call leaves the
Result row, the Tag row, and a TaggedResult row linking precisely them. -/
theorem c1_tag_object_all_or_nothing (fault : Option FaultStep) (st : Ledger)
    (t pid cid oid : String) (fn : Option String) :
    (∀ e, (tag_object fault st t pid cid oid fn).1 = .error e →
      (tag_object fault st t pid cid oid fn).2 = st) ∧
    ((tag_object fault st t pid cid oid fn).1 = .ok () →
      ∃ r tg, r.object_id = oid ∧ r.client_id = cid ∧ tg.tag_name = t ∧ tg.project_id = pid ∧
        r ∈ (tag_object fault st t pid cid oid fn).2.results ∧
        tg ∈ (tag_object fault st t pid cid oid fn).2.tags ∧
        (⟨tg, r⟩ : TaggedResultRow) ∈ (tag_object fault st t pid cid oid fn).2.taggedResults) := by
  rcases tag_object_run fault st t pid cid oid fn with
    ⟨e, heq⟩ | ⟨r, tg, st1, st2, hres, htag, hval, heq⟩
  · constructor
    · intro e2 _
      rw [heq]
    · intro hok
      rw [heq] at hok
      simp at hok
  · obtain ⟨hro, hrc, _, hrmem, _, _, _⟩ := resultGetOrCreate_spec _ _ _ _ _ _ hres
    obtain ⟨htn, htp, htmem, hres12, _, _⟩ := tagGetOrCreate_spec _ _ _ _ _ htag
    obtain ⟨hlmem, hres23, htags23, _⟩ := taggedResultGetOrCreate_spec st2 tg r
    constructor
    · intro e2 h2
      rw [heq] at h2
      simp at h2
    · intro _
      rw [heq]
      refine ⟨r, tg, hro, hrc, htn, htp, ?_, ?_, hlmem⟩
      · simpa [hres23, hres12] using hrmem
      · simpa [htags23] using htmem

theorem c1_witness :
    (tag_object (some .atTag) ⟨[], [], []⟩ "ab" "p" "c" "o" none).2 =
      (⟨[], [], []⟩ : Ledger) ∧
    (∃ r tg, r.object_id = "o" ∧ r.client_id = "c" ∧
      tg.tag_name = "ab" ∧ tg.project_id = "p" ∧
      r ∈ (tag_object none ⟨[], [], []⟩ "ab" "p" "c" "o" none).2.results ∧
      tg ∈ (tag_object none ⟨[], [], []⟩ "ab" "p" "c" "o" none).2.tags ∧
      (⟨tg, r⟩ : TaggedResultRow) ∈
        (tag_object none ⟨[], [], []⟩ "ab" "p" "c" "o" none).2.taggedResults) :=
  ⟨(c1_tag_object_all_or_nothing (some .atTag) ⟨[], [], []⟩ "ab" "p" "c" "o" none).1
      .storeFault rfl,
    (c1_tag_object_all_or_nothing none ⟨[], [], []⟩ "ab" "p" "c" "o" none).2 rfl⟩

theorem eq_of_countP_le_one {α : Type} (l : List α) (p : α → Bool) (h : l.countP p ≤ 1)
    {x y : α} (hx : x ∈ l) (hy : y ∈ l) (px : p x = true) (py : p y = true) : x = y := by
  have hx2 : x ∈ l.filter p := List.mem_filter.mpr ⟨hx, px⟩
  have hy2 : y ∈ l.filter p := List.mem_filter.mpr ⟨hy, py⟩
  have hlen : (l.filter p).length ≤ 1 := by
    rw [← List.countP_eq_length_filter]
    exact h
  cases hfl : l.filter p with
  | nil =>
    rw [hfl] at hx2
    simp at hx2
  | cons a as =>
    cases as with
    | nil =>
      rw [hfl] at hx2 hy2
      simp at hx2 hy2
      rw [hx2, hy2]
    | cons b bs =>
      rw [hfl] at hlen
      simp at hlen

/-- Key-uniqueness invariant of the relational store: the unique constraints
of §3 — at most one Result row per (`object_id`, `client_id`), one Tag row per
(`tag_name`, `project_id`), one TaggedResult row per (tag, result). -/
def LedgerInv (st : Ledger) : Prop :=
  (∀ cid oid : String,
    st.results.countP (fun x => x.client_id == cid && x.object_id == oid) ≤ 1) ∧
  (∀ t pid : String,
    st.tags.countP (fun x => x.tag_name == t && x.project_id == pid) ≤ 1) ∧
  (∀ (tg : TagRow) (r : ResultRow),
    st.taggedResults.countP (fun x => x.tag == tg && x.result == r) ≤ 1)

/-- C4: when a Result row already exists for (`object_id`, `client_id`) and
`tag_object` is called for the same pair with a different effective filename,
the call fails with `FilenameConflict` and the ledger is unchanged — the
original row keeps its filename and no row of any kind is added. -/
theorem c4_filename_conflict (st : Ledger) (t pid cid oid fn0 : String) (fn1 : Option String)
    (hInv : LedgerInv st)
    (hrow : (⟨oid, cid, fn0⟩ : ResultRow) ∈ st.results)
    (hdiff : effectiveFilename fn1 ≠ fn0)
    (hvalid : is_valid_tag t = true) :
    tag_object none st t pid cid oid fn1 = (.error .filenameConflict, st) ∧
    (⟨oid, cid, fn0⟩ : ResultRow) ∈ (tag_object none st t pid cid oid fn1).2.results := by
  have hfind : (st.results.find? fun x => x.client_id == cid && x.object_id == oid &&
      x.filename == effectiveFilename fn1) = none := by
    rw [List.find?_eq_none]
    intro x hx hpx
    simp only [Bool.and_eq_true, beq_iff_eq] at hpx
    obtain ⟨⟨hc, ho⟩, hf⟩ := hpx
    have hx0 : x = ⟨oid, cid, fn0⟩ := by
      refine eq_of_countP_le_one st.results
        (fun y => y.client_id == cid && y.object_id == oid) (hInv.1 cid oid) hx hrow ?_ ?_
      · simp [hc, ho]
      · simp
    rw [hx0] at hf
    exact hdiff hf.symm
  have hres : resultGetOrCreate st cid oid (effectiveFilename fn1) = none := by
    have hany : (st.results.any fun x => x.client_id == cid && x.object_id == oid) = true := by
      rw [List.any_eq_true]
      exact ⟨_, hrow, by simp⟩
    unfold resultGetOrCreate
    rw [hfind, if_pos hany]
  have hmain : tag_object none st t pid cid oid fn1 = (.error .filenameConflict, st) := by
    simp [tag_object, hvalid, hres]
  exact ⟨hmain, by rw [hmain]; exact hrow⟩

theorem c4_witness :
    LedgerInv ⟨[⟨"o", "c", "f0.bin"⟩], [], []⟩ ∧
    (⟨"o", "c", "f0.bin"⟩ : ResultRow) ∈
      (Ledger.mk [⟨"o", "c", "f0.bin"⟩] [] []).results ∧
    effectiveFilename (some "f1.bin") ≠ "f0.bin" ∧
    is_valid_tag "ab" = true ∧
    tag_object none ⟨[⟨"o", "c", "f0.bin"⟩], [], []⟩ "ab" "p" "c" "o" (some "f1.bin") =
      (.error .filenameConflict, (⟨[⟨"o", "c", "f0.bin"⟩], [], []⟩ : Ledger)) := by
  have hInv : LedgerInv ⟨[⟨"o", "c", "f0.bin"⟩], [], []⟩ := by
    refine ⟨fun a b => ?_, fun a b => by simp, fun a b => by simp⟩
    simp [List.countP_cons]
    split <;> simp
  refine ⟨hInv, by simp, by decide, by decide, ?_⟩
  exact (c4_filename_conflict ⟨[⟨"o", "c", "f0.bin"⟩], [], []⟩ "ab" "p" "c" "o" "f0.bin"
    (some "f1.bin") hInv (by simp) (by decide) (by decide)).1

/-- C5: `tag_object` is idempotent — after a successful call, repeating the
call with identical arguments succeeds and is a no-op, and the ledger holds
exactly one Result row, one Tag row, and one TaggedResult row for the keys
of the call (starting from any state satisfying the unique constraints). -/
theorem c5_tag_object_idempotent (st st1 : Ledger) (t pid cid oid : String)
    (fn : Option String) (hInv : LedgerInv st)
    (h1 : tag_object none st t pid cid oid fn = (.ok (), st1)) :
    tag_object none st1 t pid cid oid fn = (.ok (), st1) ∧
    st1.results.countP (fun x => x.client_id == cid && x.object_id == oid) = 1 ∧
    st1.tags.countP (fun x => x.tag_name == t && x.project_id == pid) = 1 ∧
    (∃ r tg, r.object_id = oid ∧ r.client_id = cid ∧
      tg.tag_name = t ∧ tg.project_id = pid ∧
      st1.taggedResults.countP (fun x => x.tag == tg && x.result == r) = 1) := by
  rcases tag_object_run none st t pid cid oid fn with
    ⟨e, heq⟩ | ⟨r, tg, stA, st2, hres, htag, hval, heq⟩
  · rw [heq] at h1
    simp at h1
  · rw [heq] at h1
    obtain ⟨-, hst1⟩ : (Except.ok () : Except TagError Unit) = Except.ok () ∧
        taggedResultGetOrCreate st2 tg r = st1 := by simpa using h1
    obtain ⟨hro, hrc, hrf, hrmem, hrtags, hrtagged, hRcase⟩ :=
      resultGetOrCreate_spec _ _ _ _ _ _ hres
    obtain ⟨htn, htp, htmem, ht_res, ht_tagged, hTcase⟩ := tagGetOrCreate_spec _ _ _ _ _ htag
    obtain ⟨hlmem, hl_res, hl_tags, hLcase⟩ := taggedResultGetOrCreate_spec st2 tg r
    rw [hst1] at hlmem hl_res hl_tags hLcase heq
    -- the three row counts in the final state
    have hrmem1 : r ∈ st1.results := by
      rw [hl_res, ht_res]
      exact hrmem
    have htmem1 : tg ∈ st1.tags := by
      rw [hl_tags]
      exact htmem
    have cntR : st1.results.countP (fun x => x.client_id == cid && x.object_id == oid) = 1 := by
      rw [hl_res, ht_res]
      rcases hRcase with hE | ⟨hApp, hNo⟩
      · have hpos : 0 <
            stA.results.countP (fun x => x.client_id == cid && x.object_id == oid) :=
          List.countP_pos_iff.mpr ⟨r, hrmem, by simp [hrc, hro]⟩
        have hle := hInv.1 cid oid
        rw [hE] at hpos ⊢
        omega
      · rw [hApp, List.countP_append]
        have h0 : st.results.countP (fun x => x.client_id == cid && x.object_id == oid) = 0 :=
          List.countP_eq_zero.mpr hNo
        simp [h0, List.countP_cons, hrc, hro]
    have cntT : st1.tags.countP (fun x => x.tag_name == t && x.project_id == pid) = 1 := by
      rw [hl_tags]
      rcases hTcase with hE | ⟨hApp, hNo⟩
      · have hpos : 0 < st2.tags.countP (fun x => x.tag_name == t && x.project_id == pid) :=
          List.countP_pos_iff.mpr ⟨tg, htmem, by simp [htn, htp]⟩
        have hle := hInv.2.1 t pid
        rw [hE, hrtags] at hpos
        rw [hE, hrtags]
        omega
      · rw [hApp, hrtags, List.countP_append]
        have h0 : st.tags.countP (fun x => x.tag_name == t && x.project_id == pid) = 0 := by
          refine List.countP_eq_zero.mpr ?_
          have := List.find?_eq_none.mp (hrtags ▸ hNo)
          exact this
        simp [h0, List.countP_cons, htn, htp]
    have cntL : st1.taggedResults.countP (fun x => x.tag == tg && x.result == r) = 1 := by
      rcases hLcase with hE | ⟨hApp, hNo⟩
      · have hpos : 0 < st1.taggedResults.countP (fun x => x.tag == tg && x.result == r) :=
          List.countP_pos_iff.mpr ⟨⟨tg, r⟩, hlmem, by simp⟩
        have hle := hInv.2.2 tg r
        rw [hE, ht_tagged, hrtagged] at hpos ⊢
        omega
      · rw [hApp, ht_tagged, hrtagged, List.countP_append]
        have h0 : st.taggedResults.countP (fun x => x.tag == tg && x.result == r) = 0 := by
          refine List.countP_eq_zero.mpr ?_
          exact List.find?_eq_none.mp (by rw [← hrtagged, ← ht_tagged]; exact hNo)
        simp [h0, List.countP_cons]
    -- the second identical call is a no-op
    have hsecond : tag_object none st1 t pid cid oid fn = (.ok (), st1) := by
      cases hf2 : st1.results.find? fun x => x.client_id == cid && x.object_id == oid &&
          x.filename == effectiveFilename fn with
      | none =>
        exfalso
        exact absurd (by simp [hrc, hro, hrf]) (List.find?_eq_none.mp hf2 r hrmem1)
      | some x =>
        have hx_mem := List.mem_of_find?_eq_some hf2
        have hx_pred := List.find?_some hf2
        simp only [Bool.and_eq_true, beq_iff_eq] at hx_pred
        have hxr : x = r := by
          refine eq_of_countP_le_one st1.results
            (fun y => y.client_id == cid && y.object_id == oid) (le_of_eq cntR)
            hx_mem hrmem1 ?_ ?_
          · simp [hx_pred.1.1, hx_pred.1.2]
          · simp [hrc, hro]
        subst hxr
        cases hft : st1.tags.find? fun x => x.tag_name == t && x.project_id == pid with
        | none =>
          exfalso
          exact absurd (by simp [htn, htp]) (List.find?_eq_none.mp hft tg htmem1)
        | some y =>
          have hy_mem := List.mem_of_find?_eq_some hft
          have hy_pred := List.find?_some hft
          simp only [Bool.and_eq_true, beq_iff_eq] at hy_pred
          have hytg : y = tg := by
            refine eq_of_countP_le_one st1.tags
              (fun z => z.tag_name == t && z.project_id == pid) (le_of_eq cntT)
              hy_mem htmem1 ?_ ?_
            · simp [hy_pred.1, hy_pred.2]
            · simp [htn, htp]
          subst hytg
          cases hfl : st1.taggedResults.find? fun z => z.tag == y && z.result == x with
          | none =>
            exfalso
            exact absurd (by simp) (List.find?_eq_none.mp hfl ⟨y, x⟩ hlmem)
          | some z =>
            have hres2 : resultGetOrCreate st1 cid oid (effectiveFilename fn) =
                some (x, st1) := by
              unfold resultGetOrCreate
              rw [hf2]
            have htag2 : tagGetOrCreate st1 t pid = (y, st1) := by
              unfold tagGetOrCreate
              rw [hft]
            have hl2 : taggedResultGetOrCreate st1 y x = st1 := by
              unfold taggedResultGetOrCreate
              rw [hfl]
            simp [tag_object, hval, hres2, htag2, hl2]
    exact ⟨hsecond, cntR, cntT, r, tg, hro, hrc, htn, htp, cntL⟩

theorem c5_witness :
    LedgerInv ⟨[], [], []⟩ ∧
    tag_object none ⟨[], [], []⟩ "ab" "p" "c" "o" none =
      (.ok (), (⟨[⟨"o", "c", "data.bin"⟩], [⟨"ab", "p"⟩],
        [⟨⟨"ab", "p"⟩, ⟨"o", "c", "data.bin"⟩⟩]⟩ : Ledger)) ∧
    tag_object none ⟨[⟨"o", "c", "data.bin"⟩], [⟨"ab", "p"⟩],
        [⟨⟨"ab", "p"⟩, ⟨"o", "c", "data.bin"⟩⟩]⟩ "ab" "p" "c" "o" none =
      (.ok (), (⟨[⟨"o", "c", "data.bin"⟩], [⟨"ab", "p"⟩],
        [⟨⟨"ab", "p"⟩, ⟨"o", "c", "data.bin"⟩⟩]⟩ : Ledger)) := by
  have hInv : LedgerInv ⟨[], [], []⟩ :=
    ⟨fun a b => by simp, fun a b => by simp, fun a b => by simp⟩
  exact ⟨hInv, rfl,
    (c5_tag_object_idempotent ⟨[], [], []⟩ _ "ab" "p" "c" "o" none hInv rfl).1⟩

/-- An event that removes object bytes from the object store. -/
def isStoreRemove : StoreEvent → Bool
  | .storeRemove _ _ => true
  | _ => false

/-- An event that deletes rows from the Tag Ledger. -/
def isLedgerDelete : StoreEvent → Bool
  | .ledgerDeleteResults => true
  | .ledgerDeleteTags => true
  | _ => false

theorem removes_before_deletes (l1 l2 : List StoreEvent)
    (h1 : ∀ e ∈ l1, isLedgerDelete e = false)
    (h2 : ∀ e ∈ l2, isStoreRemove e = false)
    (i j : Nat) (hi : i < (l1 ++ l2).length) (hj : j < (l1 ++ l2).length)
    (hsr : isStoreRemove ((l1 ++ l2).get ⟨i, hi⟩) = true)
    (hld : isLedgerDelete ((l1 ++ l2).get ⟨j, hj⟩) = true) : i < j := by
  have hi1 : i < l1.length := by
    by_contra hc
    push_neg at hc
    have hlt : i - l1.length < l2.length := by
      have := List.length_append l1 l2
      omega
    have he : (l1 ++ l2).get ⟨i, hi⟩ = l2.get ⟨i - l1.length, hlt⟩ := by
      simp only [List.get_eq_getElem]
      exact List.getElem_append_right hc
    rw [he] at hsr
    have hf := h2 (l2.get ⟨i - l1.length, hlt⟩) (List.get_mem _ _ _)
    simp only [List.get_eq_getElem] at hf
    simp [hf] at hsr
  have hj1 : l1.length ≤ j := by
    by_contra hc
    push_neg at hc
    have he : (l1 ++ l2).get ⟨j, hj⟩ = l1.get ⟨j, hc⟩ := by
      simp only [List.get_eq_getElem]
      exact List.getElem_append_left hc
    rw [he] at hld
    have hf := h1 (l1.get ⟨j, hc⟩) (List.get_mem _ _ _)
    simp only [List.get_eq_getElem] at hf
    simp [hf] at hld
  omega

/-- C7: after a successful purge by the administrative identity of a project
absent upstream, the object store holds nothing under the project's prefix
and the Tag Ledger holds no Tag row of the project, no Result row for any of
the project's stored objects, and no TaggedResult row of the project's tags;
and in the event trace every object-store removal precedes every ledger
deletion. -/
theorem c7_purge_project (admin : String) (store : MinioStore) (db : Ledger)
    (pid cid : String) (hcid : cid = admin) :
    (delete_local_results admin false store db pid cid).1 = .ok () ∧
    (∀ o ∈ (delete_local_results admin false store db pid cid).2.1.objects, o.1 ≠ pid) ∧
    (∀ tg ∈ (delete_local_results admin false store db pid cid).2.2.1.tags,
      tg.project_id ≠ pid) ∧
    (∀ oid, (pid, oid) ∈ store.objects →
      ∀ r ∈ (delete_local_results admin false store db pid cid).2.2.1.results,
        r.object_id ≠ oid) ∧
    (∀ tr ∈ (delete_local_results admin false store db pid cid).2.2.1.taggedResults,
      tr.tag.project_id ≠ pid) ∧
    (∀ (i j : Nat)
      (hi : i < (delete_local_results admin false store db pid cid).2.2.2.length)
      (hj : j < (delete_local_results admin false store db pid cid).2.2.2.length),
      isStoreRemove
        ((delete_local_results admin false store db pid cid).2.2.2.get ⟨i, hi⟩) = true →
      isLedgerDelete
        ((delete_local_results admin false store db pid cid).2.2.2.get ⟨j, hj⟩) = true →
      i < j) := by
  subst hcid
  have hrun : delete_local_results cid false store db pid cid =
      (.ok (),
        ⟨store.objects.filter fun o => ¬ o.1 == pid⟩,
        ⟨db.results.filter fun r =>
            ¬ ((store.objects.filter fun o => o.1 == pid).map fun o => o.2).contains
              r.object_id,
          db.tags.filter fun t => ¬ t.project_id == pid,
          db.taggedResults.filter fun tr =>
            (db.results.filter fun r =>
              ¬ ((store.objects.filter fun o => o.1 == pid).map fun o => o.2).contains
                r.object_id).contains tr.result &&
            (db.tags.filter fun t => ¬ t.project_id == pid).contains tr.tag⟩,
        (((store.objects.filter fun o => o.1 == pid).map fun o => o.2).map fun oid =>
            StoreEvent.storeRemove pid oid) ++
          [StoreEvent.ledgerDeleteResults, StoreEvent.ledgerDeleteTags]) := by
    unfold delete_local_results
    rw [if_neg (by simp), if_neg (by simp)]
  refine ⟨?_, ?_, ?_, ?_, ?_, ?_⟩
  · rw [hrun]
  · intro o ho
    rw [hrun] at ho
    simp only [List.mem_filter] at ho
    simpa using ho.2
  · intro tg htg
    rw [hrun] at htg
    simp only [List.mem_filter] at htg
    simpa using htg.2
  · intro oid hmem r hr hcon
    rw [hrun] at hr
    simp only [List.mem_filter] at hr
    have hin : r.object_id ∈ (store.objects.filter fun o => o.1 == pid).map fun o => o.2 :=
      List.mem_map.mpr ⟨(pid, oid), List.mem_filter.mpr ⟨hmem, by simp⟩, by simp [hcon]⟩
    exact absurd hin (by simpa using hr.2)
  · intro tr htr
    rw [hrun] at htr
    simp only [List.mem_filter, Bool.and_eq_true] at htr
    have htag : tr.tag ∈ db.tags.filter fun t => ¬ t.project_id == pid := by
      simpa using htr.2.2
    simpa using (List.mem_filter.mp htag).2
  · intro i j hi hj hsr hld
    revert hi hj
    rw [hrun]
    intro hi hj hsr hld
    refine removes_before_deletes _ _ ?_ ?_ i j hi hj hsr hld
    · intro e he
      obtain ⟨a, -, rfl⟩ := List.mem_map.mp he
      rfl
    · intro e he
      simp at he
      rcases he with rfl | rfl <;> rfl

theorem c7_witness :
    (delete_local_results "adm" false ⟨[("p", "o1")]⟩
      ⟨[⟨"o1", "c", "f"⟩], [⟨"ab", "p"⟩], [⟨⟨"ab", "p"⟩, ⟨"o1", "c", "f"⟩⟩]⟩
      "p" "adm").1 = .ok () ∧
    (0 : Nat) < 1 :=
  ⟨(c7_purge_project "adm" ⟨[("p", "o1")]⟩
      ⟨[⟨"o1", "c", "f"⟩], [⟨"ab", "p"⟩], [⟨⟨"ab", "p"⟩, ⟨"o1", "c", "f"⟩⟩]⟩
      "p" "adm" rfl).1,
    (c7_purge_project "adm" ⟨[("p", "o1")]⟩
      ⟨[⟨"o1", "c", "f"⟩], [⟨"ab", "p"⟩], [⟨⟨"ab", "p"⟩, ⟨"o1", "c", "f"⟩⟩]⟩
      "p" "adm" rfl).2.2.2.2.2 0 1 (by decide) (by decide) (by decide) (by decide)⟩
